import Mathlib

/-!
Verification of the branch-changed-files resolver of `gitbranchfiles`
(`src/extension.ts`).  The extension computes, for a selected branch, the
list of files changed on that branch (via a three-tier fallback of git
commands), merges in the currently modified files when the checkout
matches the selection, deduplicates, sorts directories first, and marks
modified entries.

The git command-line surface is modelled as an environment (`GitEnv`) of
raw stdout outputs, `none` standing for a command whose invocation threw
(non-zero exit / spawn failure).  The JavaScript string operations used
by the extension (`split('\n')`, `trim()`, `substring(3)`, `startsWith`,
`endsWith`, `includes`, first-occurrence `replace`, `Set`-based
deduplication) are modelled by structural recursion on `String.data` so
that every definition evaluates in the kernel.
-/

/-- Model of JavaScript `s.split('\n')` on character lists: splits at every
newline, keeping empty segments (so a trailing newline yields a final
empty segment, as in JavaScript). -/
def splitLinesL : List Char → List (List Char)
  | [] => [[]]
  | '\n' :: cs => [] :: splitLinesL cs
  | c :: cs =>
    match splitLinesL cs with
    | [] => [[c]]
    | l :: ls => (c :: l) :: ls

/-- Model of JavaScript `s.split('\n')` on strings. -/
def splitLines (s : String) : List String :=
  (splitLinesL s.data).map (fun l => ⟨l⟩)

/-- Whitespace test used by the model of JavaScript `trim()`. -/
def isWS (c : Char) : Bool :=
  c == ' ' || c == '\t' || c == '\n' || c == '\r'

/-- Model of JavaScript `s.trim()` on character lists. -/
def trimL (l : List Char) : List Char :=
  ((l.dropWhile isWS).reverse.dropWhile isWS).reverse

/-- Model of JavaScript `s.trim()`. -/
def jsTrim (s : String) : String :=
  ⟨trimL s.data⟩

/-- Model of JavaScript `s.substring(n)`. -/
def jsSubstrFrom (n : Nat) (s : String) : String :=
  ⟨s.data.drop n⟩

/-- Model of JavaScript `s.startsWith(t)` (here: does `s` start with `t`). -/
def jsStartsWith (t s : String) : Bool :=
  t.data.isPrefixOf s.data

/-- Model of JavaScript `s.endsWith(t)` (here: does `s` end with `t`). -/
def jsEndsWith (t s : String) : Bool :=
  t.data.isSuffixOf s.data

/-- Model of JavaScript `s.includes(c)` for a single-character needle. -/
def jsIncludesChar (c : Char) (s : String) : Bool :=
  s.data.contains c

/-- Does the (non-empty) pattern occur as a contiguous substring? Model of
JavaScript `s.includes(pat)`. -/
def hasSubstrL (pat : List Char) : List Char → Bool
  | [] => pat.isEmpty
  | c :: cs => pat.isPrefixOf (c :: cs) || hasSubstrL pat cs

/-- Model of JavaScript `s.replace(pat, repl)` with a string pattern:
replaces only the first occurrence, leaves the string unchanged when the
pattern does not occur. -/
def jsReplaceFirst (pat repl : List Char) : List Char → List Char
  | [] => []
  | c :: cs =>
    if pat.isPrefixOf (c :: cs) then repl ++ (c :: cs).drop pat.length
    else c :: jsReplaceFirst pat repl cs

/-- Model of JavaScript `[...new Set(l)]`: first-occurrence-order
deduplication. -/
def jsDedup {α : Type} [DecidableEq α] : List α → List α
  | [] => []
  | x :: xs => x :: (jsDedup xs).filter (fun y => y ≠ x)

/-!  Branch-name handling (extension.ts lines 324-347 and 485-493). -/

/-- The branch name used by the resolver: the selected label with the first
occurrence of `remotes/` stripped (extension.ts lines 326-329, the cleanup
of `remotes/origin/x` to `origin/x`). -/
def branchNameOf (label : String) : String :=
  if hasSubstrL ("remotes/".data) label.data then
    ⟨jsReplaceFirst ("remotes/".data) [] label.data⟩
  else label

/-- ASCII word character, the model of regexp `\w`. -/
def isWordChar (c : Char) : Bool :=
  c.isAlpha || c.isDigit || c == '_'

/-- Match of the anchored regexp `^(refs\/heads\/|refs\/remotes\/\w+\/)`
(extension.ts lines 486-487): returns the remainder after the matched
prefix, or `none` when the regexp does not match at the start. -/
def refsMatch (s : List Char) : Option (List Char) :=
  if ("refs/heads/".data).isPrefixOf s then some (s.drop 11)
  else if ("refs/remotes/".data).isPrefixOf s then
    let rest := s.drop 13
    if (rest.takeWhile isWordChar).isEmpty then none
    else
      match rest.dropWhile isWordChar with
      | '/' :: tl => some tl
      | _ => none
  else none

/-- Branch-name normalization of the working-tree scanner: strip a leading
`refs/heads/` or `refs/remotes/<word>/` (extension.ts lines 486-487,
`replace(/^(refs\/heads\/|refs\/remotes\/\w+\/)/, '')`). -/
def normalizeRefs (s : String) : String :=
  match refsMatch s.data with
  | some rest => ⟨rest⟩
  | none => s

/-- Same-branch test of the committed-file resolver (extension.ts line 347):
`branchName === baseRef || branchName.endsWith('/' + baseRef)`. -/
def isSameBranch (bn base : String) : Bool :=
  bn == base || jsEndsWith ("/" ++ base) bn

/-- Remote-branch heuristic of the working-tree scanner (extension.ts line
493): `branchName.includes('/') && !branchName.startsWith('refs/heads/')`. -/
def isRemoteBranch (bn : String) : Bool :=
  jsIncludesChar '/' bn && !(jsStartsWith "refs/heads/" bn)

/-!  The git command surface.  Each field is the raw stdout of one git
invocation, `none` when the invocation threw.  The extension runs
`git status --porcelain` at two distinct points (tier-3 fallback of the
committed-file resolver, and the working-tree scanner); these are separate
subprocess invocations and are modelled by separate fields. -/

/-- Environment of raw git command outputs used by one resolution run. -/
structure GitEnv where
  /-- Output of `git log --name-only --format="" BRANCH -- PATH | sort | uniq`
  (tier 1, same-branch history scan), by branch and path filter. -/
  logAll : String → String → Option String
  /-- Output of `git merge-base BASE BRANCH` (tier 1, differing branches). -/
  mergeBase : String → String → Option String
  /-- Output of `git diff --name-only --recurse-submodules MB BRANCH -- PATH`
  (tier 1, differing branches), by merge-base hash, branch and path. -/
  diffNames : String → String → String → Option String
  /-- Output of `git log --name-only --pretty=format: -n 20 -- PATH`
  (tier 2, same-branch). -/
  recent20 : String → Option String
  /-- Output of `git diff --name-only --recurse-submodules BASE...BRANCH -- PATH`
  (tier 2, differing branches). -/
  threeDot : String → String → String → Option String
  /-- Output of `git status --porcelain` in the tier-3 fallback. -/
  statusT3 : Option String
  /-- Output of `git rev-parse --abbrev-ref HEAD` in the scanner. -/
  currentBranch : Option String
  /-- Output of `git status --porcelain` in the scanner. -/
  statusScan : Option String
  /-- Output of `git ls-files --modified --recurse-submodules PATH`
  in the scanner. -/
  lsModified : String → Option String

/-!  Changed-File Resolver (extension.ts lines 344-476): three tiers, each
tried only when the previous one threw. -/

/-- Tier 1 of the committed-file resolver (extension.ts lines 345-436): on
the same branch, the full history scan with blank lines discarded; on
differing branches, the diff against the merge-base of base and branch
(`none` when the merge-base command or the diff command threw). -/
def tier1 (env : GitEnv) (bn base p : String) : Option (List String) :=
  if isSameBranch bn base then
    (env.logAll bn p).map (fun out => (splitLines out).filter (fun f => jsTrim f != ""))
  else
    match env.mergeBase base bn with
    | none => none
    | some mbOut => (env.diffNames (jsTrim mbOut) bn p).map splitLines

/-- Tier 2 of the committed-file resolver (extension.ts lines 439-454): on
the same branch, the files of the last 20 commits; on differing branches,
the three-dot diff `BASE...BRANCH`. -/
def tier2 (env : GitEnv) (bn base p : String) : Option (List String) :=
  if isSameBranch bn base then (env.recent20 p).map splitLines
  else (env.threeDot base bn p).map splitLines

/-- Processing of `git status --porcelain` output in the tier-3 fallback
(extension.ts lines 459-469): split into lines, drop blank lines, drop the
two status columns and the following space, trim, and when a folder is
selected keep only the files whose path starts with it. -/
def statusProc (so fp : String) : List String :=
  let statusFiles := ((splitLines so).filter (fun l => jsTrim l != "")).map
    (fun l => jsTrim (jsSubstrFrom 3 l))
  if fp != "" then statusFiles.filter (fun f => jsStartsWith fp f) else statusFiles

/-- Tier 3 of the committed-file resolver (extension.ts lines 457-474):
working-tree status, `none` when the status command also threw. -/
def tier3 (env : GitEnv) (fp : String) : Option (List String) :=
  env.statusT3.map (fun so => statusProc so fp)

/-- The committed-file resolver (extension.ts lines 344-476): tier 1, then
tier 2 when tier 1 threw, then tier 3, and the empty list when every tier
threw.  `bn` is the (remotes-stripped) branch name, `base` the resolved
base ref, `p` the path passed to git commands, `fp` the folder path used
for prefix filtering (the source computes them equal). -/
def resolveCommitted (env : GitEnv) (bn base p fp : String) : List String :=
  match tier1 env bn base p with
  | some l => l
  | none =>
    match tier2 env bn base p with
    | some l => l
    | none =>
      match tier3 env fp with
      | some l => l
      | none => []

/-- The committed-file set contributed to the final result: the resolver
output with blank entries discarded (the blank filter of extension.ts line
533 applied to the committed part). -/
def committedSet (env : GitEnv) (bn base p fp : String) : List String :=
  (resolveCommitted env bn base p fp).filter (fun f => jsTrim f != "")

/-!  Working-Tree Modification Scanner (extension.ts lines 478-528). -/

/-- Eligibility of the modification scan (extension.ts lines 482-495): the
current HEAD branch is known, its refs-normalized name equals the
refs-normalized selected branch, and the selected branch is not in remote
form. -/
def scanEligible (env : GitEnv) (bn : String) : Bool :=
  match env.currentBranch with
  | none => false
  | some curOut =>
    (normalizeRefs (jsTrim curOut) == normalizeRefs bn) && !(isRemoteBranch bn)

/-- The union collected by an eligible scan (extension.ts lines 496-521):
prefix-filtered status files, united (JavaScript-`Set` style) with the
blank-filtered `git ls-files --modified` output; when the `ls-files`
invocation throws after the status assignment, the status part alone
survives. -/
def scanUnion (env : GitEnv) (fp p : String) : List String :=
  match env.statusScan with
  | none => []
  | some so =>
    let statusFiles := ((splitLines so).filter (fun l => jsTrim l != "")).map
      (fun l => jsTrim (jsSubstrFrom 3 l))
    let m1 := if fp != "" then statusFiles.filter (fun f => jsStartsWith fp f)
      else statusFiles
    match env.lsModified p with
    | none => m1
    | some lo => jsDedup (m1 ++ (splitLines lo).filter (fun f => jsTrim f != ""))

/-- The working-tree modification scanner (extension.ts lines 478-528),
transcribed: when the current branch is unknown (command threw) or the
eligibility condition fails, the modified set is empty. -/
def modifiedFiles (env : GitEnv) (bn fp p : String) : List String :=
  match env.currentBranch with
  | none => []
  | some curOut =>
    let nCur := normalizeRefs (jsTrim curOut)
    let nSel := normalizeRefs bn
    if (nCur == nSel) && !(isRemoteBranch bn) then scanUnion env fp p
    else []

/-!  Result Merger & Sorter (extension.ts lines 530-555). -/

/-- Union of committed and modified files with duplicates removed
(extension.ts line 531, `[...new Set([...committedFiles, ...modifiedFiles])]`). -/
def allChangedFiles (committed modified : List String) : List String :=
  jsDedup (committed ++ modified)

/-- The merged file list with blank entries discarded (extension.ts line
533). -/
def changedFiles (committed modified : List String) : List String :=
  (allChangedFiles committed modified).filter (fun f => jsTrim f != "")

/-- Directory heuristic of the sort comparator (extension.ts lines 538-539):
the path ends with a slash or contains no dot. -/
def isDirLike (s : String) : Bool :=
  jsEndsWith "/" s || !(jsIncludesChar '.' s)

/-- Lowercased character data, the model of case-insensitive (`sensitivity:
'base'`) comparison. -/
def lowerData (s : String) : List Char :=
  s.data.map Char.toLower

/-- Lexicographic comparison of character lists. -/
def lexCmpL : List Char → List Char → Ordering
  | [], [] => Ordering.eq
  | [], _ :: _ => Ordering.lt
  | _ :: _, [] => Ordering.gt
  | a :: as, b :: bs =>
    if a < b then Ordering.lt else if b < a then Ordering.gt else lexCmpL as bs

/-- Model of `a.localeCompare(b, undefined, { sensitivity: 'base' })`
(extension.ts line 546): case-insensitive lexicographic comparison,
reported as a sign. -/
def localeCmp (a b : String) : Int :=
  match lexCmpL (lowerData a) (lowerData b) with
  | Ordering.lt => -1
  | Ordering.eq => 0
  | Ordering.gt => 1

/-- The sort comparator (extension.ts lines 536-547): directories first,
then case-insensitive lexicographic. -/
def fileCmp (a b : String) : Int :=
  if isDirLike a && !(isDirLike b) then -1
  else if !(isDirLike a) && isDirLike b then 1
  else localeCmp a b

/-- The non-strict order induced by the comparator, used by the stable
sort. -/
def fileLe (a b : String) : Bool :=
  fileCmp a b ≤ 0

/-- The non-strict lexicographic order: not greater. -/
def lexLe (x y : List Char) : Prop :=
  lexCmpL x y ≠ Ordering.gt

/-- Rank of the primary sort key: directory-like entries first. -/
def dirRank (s : String) : Nat :=
  if isDirLike s then 0 else 1

/-- The sorted merged list (extension.ts lines 536-547); JavaScript
`Array.prototype.sort` is a stable sort consistent with the comparator,
modelled by the stable `List.mergeSort`. -/
def sortedFiles (committed modified : List String) : List String :=
  (changedFiles committed modified).mergeSort fileLe

/-- Formatting of one entry (extension.ts lines 550-555): an asterisk for
files present in the modified list. -/
def markFile (modified : List String) (f : String) : String :=
  if modified.contains f then "* " ++ f else "  " ++ f

/-- The final formatted list (extension.ts lines 550-555). -/
def formattedFiles (committed modified : List String) : List String :=
  (sortedFiles committed modified).map (markFile modified)

/-!  Early flow: repository check and branch listing (extension.ts lines
262-300). -/

/-- Outcome of the early flow, up to the branch list presented to the
user. -/
inductive EarlyOutcome where
  /-- Terminal message: the selected folder is not a git repository. -/
  | notGitRepoError : EarlyOutcome
  /-- Terminal message: listing the branches failed. -/
  | branchListError : EarlyOutcome
  /-- The flow proceeds with the parsed branch labels. -/
  | proceed : List String → EarlyOutcome
deriving DecidableEq

/-- Parsing of `git branch --all` output (extension.ts lines 292-300):
drop blank lines, strip the first `*`, trim. -/
def branchItemsOf (out : String) : List String :=
  ((splitLines out).filter (fun b => jsTrim b != "")).map
    (fun b => jsTrim ⟨jsReplaceFirst ['*'] [] b.data⟩)

/-- The early flow (extension.ts lines 266-300): the work-tree verification
failure is terminal only for an external selection; otherwise the flow
falls through to branch listing, whose failure is terminal. -/
def earlyFlow (gitOk : Bool) (branchesOut : Option String) (isExternal : Bool) :
    EarlyOutcome :=
  if !gitOk && isExternal then EarlyOutcome.notGitRepoError
  else
    match branchesOut with
    | none => EarlyOutcome.branchListError
    | some out => EarlyOutcome.proceed (branchItemsOf out)

/-!  Abstract repository semantics, used to state the history-scan claim.
The git contract for `git log --name-only --format="" BRANCH -- PATH` is
that it lists, commit by commit, the files touched by every commit
reachable from the branch, within the path scope. -/

/-- Abstract repository: reachable commits of a ref, files touched by a
commit, and the path-scope predicate of a pathspec. -/
structure Repo where
  /-- Commits reachable from a ref, in log order. -/
  reachable : String → List Nat
  /-- Files touched by one commit. -/
  touched : Nat → List String
  /-- Does a file fall in the scope of a path filter? -/
  inScope : String → String → Bool

/-- All files touched by any commit reachable from a branch, within the
path scope (with multiplicity; the history-scan set). -/
def histFiles (r : Repo) (bn p : String) : List String :=
  ((r.reachable bn).flatMap r.touched).filter (fun f => r.inScope p f)

/-!  Concrete environments and repositories used to instantiate the
hypothesis-bearing theorems. -/

/-- Environment in which every git invocation throws. -/
def envFail : GitEnv where
  logAll := fun _ _ => none
  mergeBase := fun _ _ => none
  diffNames := fun _ _ _ => none
  recent20 := fun _ => none
  threeDot := fun _ _ _ => none
  statusT3 := none
  currentBranch := none
  statusScan := none
  lsModified := fun _ => none

/-- Environment in which the same-branch history scan of `main` succeeds. -/
def envC1 : GitEnv :=
  { envFail with logAll := fun b _ => if b == "main" then some "a.txt\nb.txt" else none }

/-- Repository with two commits reachable from `main`, touching `a.txt`
and then `b.txt` and `a.txt` again. -/
def rC1 : Repo where
  reachable := fun b => if b == "main" then [0, 1] else []
  touched := fun c => if c == 0 then ["a.txt"] else ["b.txt", "a.txt"]
  inScope := fun _ _ => true

/-- Environment in which the merge-base and diff commands for
`feature/x` against `main` succeed. -/
def envC2 : GitEnv :=
  { envFail with
    mergeBase := fun b c =>
      if b == "main" && c == "feature/x" then some "abc123\n" else none,
    diffNames := fun mb b _ =>
      if mb == "abc123" && b == "feature/x" then some "src/a.ts\nsrc/b.ts\n"
      else none }

/-- Environment for the C2 counterexample: selecting `origin/main` against
base `main`, the history scan lists two files while the merge-base diff
(whose commands would succeed) is empty, the two refs pointing at the
same commit. -/
def envC2x : GitEnv :=
  { envFail with
    logAll := fun b _ => if b == "origin/main" then some "a.txt\nb.txt" else none,
    mergeBase := fun b c =>
      if b == "main" && c == "origin/main" then some "abc\n" else none,
    diffNames := fun mb b _ =>
      if mb == "abc" && b == "origin/main" then some "" else none }

/-- Environment in which the scanner commands succeed while the checkout
is on `feature/x`. -/
def envC3 : GitEnv :=
  { envFail with
    currentBranch := some "feature/x",
    statusScan := some " M a.txt",
    lsModified := fun _ => some "b.txt" }

/-- Environment in which only the tier-3 status command succeeds. -/
def envC4 : GitEnv :=
  { envFail with statusT3 := some " M a.txt\n?? sub/b.js" }

/-- Environment in which every committed-file tier throws while the
scanner is eligible (checkout on `dev`) and succeeds. -/
def envC10 : GitEnv :=
  { envFail with
    currentBranch := some "dev\n",
    statusScan := some " M x.txt",
    lsModified := fun _ => some "y.js" }

/-!  Helper lemmas. -/

theorem mem_jsDedup {α : Type} [DecidableEq α] (a : α) (l : List α) :
    a ∈ jsDedup l ↔ a ∈ l := by
  induction l with
  | nil => simp [jsDedup]
  | cons x xs ih =>
    simp only [jsDedup, List.mem_cons, List.mem_filter, ih]
    constructor
    · rintro (rfl | ⟨h, -⟩)
      · exact Or.inl rfl
      · exact Or.inr h
    · intro h
      by_cases hax : a = x
      · exact Or.inl hax
      · rcases h with h | h
        · exact Or.inl h
        · exact Or.inr ⟨h, by simpa using hax⟩

theorem nodup_jsDedup {α : Type} [DecidableEq α] (l : List α) : (jsDedup l).Nodup := by
  induction l with
  | nil => simp [jsDedup]
  | cons x xs ih =>
    refine List.nodup_cons.mpr ⟨?_, ih.filter _⟩
    intro hx
    have := (List.mem_filter.mp hx).2
    simp at this

theorem lexCmpL_eq_iff : ∀ x y : List Char, lexCmpL x y = Ordering.eq ↔ x = y
  | [], [] => by simp [lexCmpL]
  | [], _ :: _ => by simp [lexCmpL]
  | _ :: _, [] => by simp [lexCmpL]
  | a :: as, b :: bs => by
    simp only [lexCmpL, List.cons.injEq]
    by_cases h1 : a < b
    · simp only [if_pos h1]
      constructor
      · intro h; cases h
      · rintro ⟨rfl, -⟩; exact absurd h1 (lt_irrefl a)
    · by_cases h2 : b < a
      · simp only [if_neg h1, if_pos h2]
        constructor
        · intro h; cases h
        · rintro ⟨rfl, -⟩; exact absurd h2 (lt_irrefl a)
      · have hab : a = b := le_antisymm (le_of_not_lt h2) (le_of_not_lt h1)
        simp [if_neg h1, if_neg h2, lexCmpL_eq_iff as bs, hab]

theorem lexCmpL_swap : ∀ x y : List Char, lexCmpL y x = (lexCmpL x y).swap
  | [], [] => rfl
  | [], _ :: _ => rfl
  | _ :: _, [] => rfl
  | a :: as, b :: bs => by
    simp only [lexCmpL]
    by_cases h1 : a < b
    · rw [if_neg (lt_asymm h1), if_pos h1, if_pos h1]; rfl
    · by_cases h2 : b < a
      · rw [if_pos h2, if_neg h1, if_pos h2]; rfl
      · rw [if_neg h2, if_neg h1, if_neg h1, if_neg h2, lexCmpL_swap as bs]

theorem lexCmpL_lt_trans :
    ∀ x y z : List Char, lexCmpL x y = Ordering.lt → lexCmpL y z = Ordering.lt →
      lexCmpL x z = Ordering.lt
  | [], _ :: _, _ :: _, _, _ => rfl
  | [], [], _, h1, _ => by cases h1
  | [], _ :: _, [], _, h2 => by cases h2
  | _ :: _, [], _, h1, _ => by simp [lexCmpL] at h1
  | _ :: _, _ :: _, [], _, h2 => by simp [lexCmpL] at h2
  | a :: as, b :: bs, c :: cs, h1, h2 => by
    simp only [lexCmpL] at h1 h2 ⊢
    by_cases hab : a < b
    · by_cases hbc : b < c
      · rw [if_pos (lt_trans hab hbc)]
      · by_cases hcb : c < b
        · rw [if_neg hbc, if_pos hcb] at h2; cases h2
        · have : b = c := le_antisymm (le_of_not_lt hcb) (le_of_not_lt hbc)
          subst this
          rw [if_pos hab]
    · by_cases hba : b < a
      · rw [if_neg hab, if_pos hba] at h1
        cases h1
      · have : a = b := le_antisymm (le_of_not_lt hba) (le_of_not_lt hab)
        subst this
        rw [if_neg hab, if_neg hba] at h1
        by_cases hac : a < c
        · rw [if_pos hac]
        · by_cases hca : c < a
          · rw [if_neg hac, if_pos hca] at h2; cases h2
          · have : a = c := le_antisymm (le_of_not_lt hca) (le_of_not_lt hac)
            subst this
            rw [if_neg hac, if_neg hca] at h2 ⊢
            exact lexCmpL_lt_trans as bs cs h1 h2

theorem lexLe_iff (x y : List Char) :
    lexLe x y ↔ lexCmpL x y = Ordering.lt ∨ x = y := by
  unfold lexLe
  rcases h : lexCmpL x y with - | - | -
  · simp
  · simpa using (lexCmpL_eq_iff x y).mp h
  · constructor
    · intro hne; exact absurd rfl hne
    · rintro (h2 | h2)
      · cases h2
      · rw [h2, (lexCmpL_eq_iff y y).mpr rfl] at h; cases h

theorem lexLe_trans {x y z : List Char} (h1 : lexLe x y) (h2 : lexLe y z) :
    lexLe x z := by
  rcases (lexLe_iff x y).mp h1 with ha | rfl
  · rcases (lexLe_iff y z).mp h2 with hb | rfl
    · exact (lexLe_iff x z).mpr (Or.inl (lexCmpL_lt_trans x y z ha hb))
    · exact (lexLe_iff x y).mpr (Or.inl ha)
  · exact h2

theorem lexLe_total (x y : List Char) : lexLe x y ∨ lexLe y x := by
  rcases h : lexCmpL x y with - | - | -
  · exact Or.inl (by simp [lexLe, h])
  · exact Or.inl (by simp [lexLe, h])
  · refine Or.inr ?_
    rw [lexLe, lexCmpL_swap, h]
    simp [Ordering.swap]

theorem fileLe_iff (a b : String) :
    fileLe a b = true ↔
      (dirRank a < dirRank b ∨
        (dirRank a = dirRank b ∧ lexLe (lowerData a) (lowerData b))) := by
  unfold fileLe fileCmp localeCmp dirRank lexLe
  by_cases da : isDirLike a <;> by_cases db : isDirLike b <;>
    simp only [da, db, Bool.not_true, Bool.not_false, Bool.true_and, Bool.false_and,
      Bool.and_true, Bool.and_false, if_true, if_false] <;>
    [skip; simp; simp; skip] <;>
    rcases h : lexCmpL (lowerData a) (lowerData b) with - | - | - <;> simp [h]

theorem fileLe_total (a b : String) : (fileLe a b || fileLe b a) = true := by
  rw [Bool.or_eq_true, fileLe_iff, fileLe_iff]
  rcases Nat.lt_trichotomy (dirRank a) (dirRank b) with h | h | h
  · exact Or.inl (Or.inl h)
  · rcases lexLe_total (lowerData a) (lowerData b) with hl | hl
    · exact Or.inl (Or.inr ⟨h, hl⟩)
    · exact Or.inr (Or.inr ⟨h.symm, hl⟩)
  · exact Or.inr (Or.inl h)

theorem fileLe_trans (a b c : String) (h1 : fileLe a b) (h2 : fileLe b c) :
    fileLe a c := by
  rw [fileLe_iff] at h1 h2 ⊢
  rcases h1 with h1 | ⟨h1, h1l⟩
  · rcases h2 with h2 | ⟨h2, -⟩
    · exact Or.inl (Nat.lt_trans h1 h2)
    · exact Or.inl (h2 ▸ h1)
  · rcases h2 with h2 | ⟨h2, h2l⟩
    · exact Or.inl (h1 ▸ h2)
    · exact Or.inr ⟨h1.trans h2, lexLe_trans h1l h2l⟩

theorem fileLe_imp (a b : String) (h : fileLe a b = true) :
    (isDirLike b = true → isDirLike a = true) ∧
      (isDirLike a = isDirLike b → lexLe (lowerData a) (lowerData b)) := by
  rw [fileLe_iff] at h
  unfold dirRank at h
  by_cases da : isDirLike a <;> by_cases db : isDirLike b <;>
    simp [da, db] at h ⊢ <;> try exact h

/-!  Claim theorems. -/

/-- Claim C6: in the final sorted list, every directory-like entry
(path ending in a slash or containing no dot) precedes every file-like
entry, and within each class entries are in case-insensitive lexicographic
order: every earlier-later pair of the sorted output satisfies the
two-key ordering. -/
theorem c6_sorted_order (c m : List String) :
    (sortedFiles c m).Pairwise (fun a b =>
      (isDirLike b = true → isDirLike a = true) ∧
      (isDirLike a = isDirLike b → lexLe (lowerData a) (lowerData b))) := by
  have hp : (sortedFiles c m).Pairwise (fun a b => fileLe a b = true) :=
    List.sorted_mergeSort fileLe_trans fileLe_total (changedFiles c m)
  exact hp.imp (fun h => fileLe_imp _ _ h)

/-- Claim C7, counterexample: the comparator reports the two distinct
paths "A" and "a" as equal (both are dot-free, hence directory-like, and
they agree case-insensitively), refuting the claim that only textually
identical paths compare equal. -/
theorem c7_counterexample : fileCmp "A" "a" = 0 ∧ "A" ≠ "a" := by decide

/-- Claim C7 (amended): the comparator is total, and it reports two paths
as equal exactly when they fall in the same directory-likeness class and
agree up to character case — so distinct paths may compare equal, but only
case-insensitively identical ones of the same class. -/
theorem c7_comparator_total (a b : String) :
    (fileLe a b || fileLe b a) = true ∧
      (fileCmp a b = 0 ↔ (isDirLike a = isDirLike b ∧ lowerData a = lowerData b)) := by
  refine ⟨fileLe_total a b, ?_⟩
  unfold fileCmp localeCmp
  by_cases da : isDirLike a <;> by_cases db : isDirLike b <;>
    simp only [da, db, Bool.not_true, Bool.not_false, Bool.true_and, Bool.false_and,
      Bool.and_true, Bool.and_false, if_true, if_false] <;>
    [skip; simp; simp; skip] <;>
    rcases h : lexCmpL (lowerData a) (lowerData b) with - | - | - <;>
    simp [h, ← lexCmpL_eq_iff (lowerData a) (lowerData b)]

/-- Claim C8, counterexample: the remote-form stripping normalization is
not idempotent — on the (legal) branch label `remotes/remotes/main` one
application yields `remotes/main` and a second application yields `main`,
because JavaScript `replace` removes only the first occurrence and the
stripped string can again contain the pattern. -/
theorem c8_counterexample :
    branchNameOf (branchNameOf "remotes/remotes/main") ≠
      branchNameOf "remotes/remotes/main" := by decide

/-- Claim C8 (amended): both normalizations are idempotent on every input
whose once-normalized form is no longer normalizable — for the
remote-prefix stripping, when the stripped string no longer contains
`remotes/`; for the refs-prefix stripping, when the stripped string no
longer starts with a refs prefix.  (Unrestricted idempotence fails, see
the counterexample.) -/
theorem c8_normalization_idempotent (s t : String)
    (h1 : hasSubstrL ("remotes/".data) (branchNameOf s).data = false)
    (h2 : refsMatch (normalizeRefs t).data = none) :
    branchNameOf (branchNameOf s) = branchNameOf s ∧
      normalizeRefs (normalizeRefs t) = normalizeRefs t := by
  constructor
  · have hd : branchNameOf (branchNameOf s) =
        if hasSubstrL ("remotes/".data) (branchNameOf s).data then
          (⟨jsReplaceFirst ("remotes/".data) [] (branchNameOf s).data⟩ : String)
        else branchNameOf s := rfl
    rw [hd, h1]
    simp
  · have hd : normalizeRefs (normalizeRefs t) =
        match refsMatch (normalizeRefs t).data with
        | some rest => (⟨rest⟩ : String)
        | none => normalizeRefs t := rfl
    rw [hd, h2]

/-- Claim C8, witness: the amended idempotence at the remote-tracking label
`remotes/origin/dev` and the head ref `refs/heads/dev`. -/
theorem c8_normalization_idempotent_witness :
    hasSubstrL ("remotes/".data) (branchNameOf "remotes/origin/dev").data = false ∧
      refsMatch (normalizeRefs "refs/heads/dev").data = none ∧
      (branchNameOf (branchNameOf "remotes/origin/dev") =
          branchNameOf "remotes/origin/dev" ∧
        normalizeRefs (normalizeRefs "refs/heads/dev") =
          normalizeRefs "refs/heads/dev") :=
  ⟨by decide, by decide,
    c8_normalization_idempotent "remotes/origin/dev" "refs/heads/dev"
      (by decide) (by decide)⟩

/-- Claim C9, counterexample: with a selected directory that is not a git
working tree (the verification command fails, `gitOk = false`) but lies
inside the workspace (`isExternal = false`), the flow does not surface the
verification failure: it proceeds to branch listing, and when that
succeeds the resolution is attempted — refuting "surfaced immediately ...
and no resolution is attempted" for every non-work-tree input. -/
theorem c9_counterexample :
    earlyFlow false (some "* main\n") false = EarlyOutcome.proceed ["main"] ∧
      earlyFlow false (some "* main\n") false ≠ EarlyOutcome.notGitRepoError := by
  decide

/-- Claim C9 (amended): the work-tree verification failure is surfaced
immediately as the terminal not-a-repository message, with no resolution
attempted, only when the selected directory is external; for a
workspace-internal selection the verification result is ignored, and a
failure surfaces (if at all) only later, as the branch-listing error. -/
theorem c9_repo_check (b : Option String) (out : String) :
    earlyFlow false b true = EarlyOutcome.notGitRepoError ∧
      earlyFlow false none false = EarlyOutcome.branchListError ∧
      earlyFlow false (some out) false = EarlyOutcome.proceed (branchItemsOf out) :=
  ⟨rfl, rfl, rfl⟩

/-- Claim C1: when the (remotes-stripped) selected branch equals the
resolved base, the committed-file set is the deduplicated set of files
touched by any commit reachable from the branch (history-scan semantics):
assuming the history-scan command succeeds and its output lines carry
exactly the touched files (the `sort | uniq` pipeline making nonblank
lines unique), membership in the committed set coincides with membership
in the history-scan set, the committed set has no duplicates, and it is
nonempty whenever some reachable commit touched a (nonblank) file — not
the empty result a self-diff would give. -/
theorem c1_same_branch_history_scan (env : GitEnv) (r : Repo)
    (label base p fp out : String)
    (hnorm : branchNameOf label = base)
    (hcmd : env.logAll (branchNameOf label) p = some out)
    (hsem1 : ∀ f ∈ splitLines out, jsTrim f ≠ "" → f ∈ histFiles r (branchNameOf label) p)
    (hsem2 : ∀ f ∈ histFiles r (branchNameOf label) p, jsTrim f ≠ "" → f ∈ splitLines out)
    (huniq : ((splitLines out).filter (fun f => jsTrim f != "")).Nodup) :
    (∀ f, f ∈ committedSet env (branchNameOf label) base p fp ↔
        (f ∈ histFiles r (branchNameOf label) p ∧ jsTrim f ≠ "")) ∧
      (committedSet env (branchNameOf label) base p fp).Nodup ∧
      ((∃ f, f ∈ histFiles r (branchNameOf label) p ∧ jsTrim f ≠ "") →
        committedSet env (branchNameOf label) base p fp ≠ []) := by
  have hsame : isSameBranch (branchNameOf label) base = true := by
    unfold isSameBranch
    rw [hnorm]
    simp
  have hres : resolveCommitted env (branchNameOf label) base p fp =
      (splitLines out).filter (fun f => jsTrim f != "") := by
    unfold resolveCommitted tier1
    rw [hsame, hcmd]
    rfl
  have hmem : ∀ f, f ∈ committedSet env (branchNameOf label) base p fp ↔
      (f ∈ histFiles r (branchNameOf label) p ∧ jsTrim f ≠ "") := by
    intro f
    unfold committedSet
    rw [hres]
    simp only [List.mem_filter, bne_iff_ne, ne_eq, List.mem_filter]
    constructor
    · rintro ⟨⟨hf, hb⟩, -⟩
      exact ⟨hsem1 f hf hb, hb⟩
    · rintro ⟨hf, hb⟩
      exact ⟨⟨hsem2 f hf hb, hb⟩, hb⟩
  refine ⟨hmem, ?_, ?_⟩
  · unfold committedSet
    rw [hres]
    exact huniq.filter _
  · rintro ⟨f, hf, hb⟩
    exact List.ne_nil_of_mem ((hmem f).mpr ⟨hf, hb⟩)

/-- Claim C1, witness: the concrete environment `envC1` and repository
`rC1`, with `main` selected while the base is `main`. -/
theorem c1_same_branch_history_scan_witness :
    branchNameOf "main" = "main" ∧
      envC1.logAll (branchNameOf "main") "" = some "a.txt\nb.txt" ∧
      ((∀ f, f ∈ committedSet envC1 (branchNameOf "main") "main" "" "" ↔
          (f ∈ histFiles rC1 (branchNameOf "main") "" ∧ jsTrim f ≠ "")) ∧
        (committedSet envC1 (branchNameOf "main") "main" "" "").Nodup ∧
        ((∃ f, f ∈ histFiles rC1 (branchNameOf "main") "" ∧ jsTrim f ≠ "") →
          committedSet envC1 (branchNameOf "main") "main" "" "" ≠ [])) :=
  ⟨by decide, by decide,
    c1_same_branch_history_scan envC1 rC1 "main" "main" "" "" "a.txt\nb.txt"
      (by decide) (by decide) (by decide) (by decide) (by decide)⟩

/-- Claim C2, counterexample: the branch `origin/main` against base
`main` is in the claim's scope — its normalized form differs from the
base under both of the code's normalizations — and in `envC2x` the
merge-base and diff commands succeed with an empty diff (the two refs
coincide); yet the line-347 suffix test `endsWith('/' + base)` routes
the resolver to the history scan, whose committed set lists two files,
so the committed set does not equal the merge-base diff set. -/
theorem c2_counterexample :
    branchNameOf "origin/main" ≠ "main" ∧
      normalizeRefs "origin/main" ≠ "main" ∧
      envC2x.mergeBase "main" (branchNameOf "origin/main") = some "abc\n" ∧
      envC2x.diffNames (jsTrim "abc\n") (branchNameOf "origin/main") "" = some "" ∧
      (splitLines "").filter (fun f => jsTrim f != "") = [] ∧
      committedSet envC2x (branchNameOf "origin/main") "main" "" "" =
        ["a.txt", "b.txt"] := by
  decide

/-- Claim C2 (amended): for a branch whose remotes-stripped name neither
equals the base nor ends with a slash followed by the base (the
resolver's actual differing-branch condition), when the merge-base
command and the diff command succeed, the committed-file set is exactly
the (nonblank) file list of the diff between the trimmed merge-base and
the branch tip with the path filter passed through; and when tier 1
throws, the resolver still returns — the three-dot diff output when the
tier-2 command succeeds, otherwise the tier-3 status result (or the
empty list), never an exception.  (The claim's broader scope, every
branch whose normalized form differs from the base, fails on names such
as `origin/main`, which the suffix test sends to the history scan — see
the counterexample.) -/
theorem c2_differing_branch_diff (env : GitEnv) (label base p fp : String)
    (hne1 : branchNameOf label ≠ base)
    (hne2 : jsEndsWith ("/" ++ base) (branchNameOf label) = false) :
    (∀ mbOut dOut, env.mergeBase base (branchNameOf label) = some mbOut →
        env.diffNames (jsTrim mbOut) (branchNameOf label) p = some dOut →
        committedSet env (branchNameOf label) base p fp =
          (splitLines dOut).filter (fun f => jsTrim f != "")) ∧
      (∀ t2Out, tier1 env (branchNameOf label) base p = none →
        env.threeDot base (branchNameOf label) p = some t2Out →
        resolveCommitted env (branchNameOf label) base p fp = splitLines t2Out) ∧
      (tier1 env (branchNameOf label) base p = none →
        env.threeDot base (branchNameOf label) p = none →
        resolveCommitted env (branchNameOf label) base p fp =
          (match env.statusT3 with
           | some so => statusProc so fp
           | none => [])) := by
  have hne : isSameBranch (branchNameOf label) base = false := by
    unfold isSameBranch
    rw [hne2, Bool.or_false]
    exact beq_eq_false_iff_ne.mpr hne1
  refine ⟨?_, ?_, ?_⟩
  · intro mbOut dOut hmb hd
    have ht1 : tier1 env (branchNameOf label) base p = some (splitLines dOut) := by
      unfold tier1
      rw [hne, hmb]
      show Option.map splitLines (env.diffNames (jsTrim mbOut) (branchNameOf label) p) =
        some (splitLines dOut)
      rw [hd]
      rfl
    unfold committedSet resolveCommitted
    rw [ht1]
  · intro t2Out h1 h2
    unfold resolveCommitted tier2
    rw [h1, hne, h2]
    rfl
  · intro h1 h2
    unfold resolveCommitted tier2 tier3
    rw [h1, hne, h2]
    cases hs : env.statusT3 <;> rfl

/-- Claim C2, witness: the concrete environment `envC2`, selecting
`feature/x` against base `main` — the name neither equals `main` nor
ends with `/main`. -/
theorem c2_differing_branch_diff_witness :
    branchNameOf "feature/x" ≠ "main" ∧
      jsEndsWith ("/" ++ "main") (branchNameOf "feature/x") = false ∧
      committedSet envC2 (branchNameOf "feature/x") "main" "" "" =
        (splitLines "src/a.ts\nsrc/b.ts\n").filter (fun f => jsTrim f != "") :=
  ⟨by decide, by decide,
    (c2_differing_branch_diff envC2 "feature/x" "main" "" "" (by decide)
        (by decide)).1
      "abc123\n" "src/a.ts\nsrc/b.ts\n" (by decide) (by decide)⟩

/-- Claim C3: the working-tree scanner runs exactly when the scan is
eligible — the current HEAD branch is known, its refs-normalized name
equals the refs-normalized selected branch, and the selected branch is
not in remote form — and otherwise yields the empty set as a no-op; in
particular, for a selected branch in remote form the modified set is
empty regardless of the checkout state, and an unknown current branch
(failed command) also yields the empty set. -/
theorem c3_scanner_condition (env : GitEnv) (bn fp p : String) :
    modifiedFiles env bn fp p =
        (if scanEligible env bn then scanUnion env fp p else []) ∧
      (isRemoteBranch bn = true → modifiedFiles env bn fp p = []) ∧
      (env.currentBranch = none → modifiedFiles env bn fp p = []) := by
  refine ⟨?_, ?_, ?_⟩
  · cases hcb : env.currentBranch <;>
      simp [modifiedFiles, scanEligible, hcb]
  · intro hr
    cases hcb : env.currentBranch <;>
      simp [modifiedFiles, hcb, hr]
  · intro h
    simp [modifiedFiles, h]

/-- Claim C3, witness: the remote-form selection `origin/feature/x` yields
an empty modified set in the environment `envC3` even though the scanner
commands would succeed there. -/
theorem c3_scanner_condition_witness :
    isRemoteBranch "origin/feature/x" = true ∧
      modifiedFiles envC3 "origin/feature/x" "" "" = [] :=
  ⟨by decide, (c3_scanner_condition envC3 "origin/feature/x" "" "").2.1 (by decide)⟩

/-- Claim C4: when tiers 1 and 2 both throw, the resolver returns the
tier-3 result — the status file list restricted to the folder by a
string-prefix match — when the status command succeeds, and the empty
list (not an exception: the resolver is a total function) when the status
command also throws. -/
theorem c4_status_fallback (env : GitEnv) (bn base p fp : String)
    (h1 : tier1 env bn base p = none) (h2 : tier2 env bn base p = none) :
    (∀ so, env.statusT3 = some so →
        resolveCommitted env bn base p fp = statusProc so fp) ∧
      (env.statusT3 = none → resolveCommitted env bn base p fp = []) := by
  constructor
  · intro so hso
    unfold resolveCommitted tier3
    rw [h1, h2, hso]
    rfl
  · intro hnone
    unfold resolveCommitted tier3
    rw [h1, h2, hnone]
    rfl

/-- Claim C4, witness: in the environment `envC4` (tiers 1 and 2 throw,
status succeeds), with the folder filter `sub`, the resolver yields the
prefix-filtered status files. -/
theorem c4_status_fallback_witness :
    tier1 envC4 "dev" "main" "" = none ∧
      tier2 envC4 "dev" "main" "" = none ∧
      resolveCommitted envC4 "dev" "main" "" "sub" =
        statusProc " M a.txt\n?? sub/b.js" "sub" ∧
      statusProc " M a.txt\n?? sub/b.js" "sub" = ["sub/b.js"] :=
  ⟨by decide, by decide,
    (c4_status_fallback envC4 "dev" "main" "" "sub" (by decide) (by decide)).1
      " M a.txt\n?? sub/b.js" (by decide), by decide⟩

/-- Claim C5: the final result contains no duplicate paths, and a
(nonblank) file contributed by both the committed set and the modified
set appears exactly once in the sorted list, is formatted with the
modified marker, and never appears unmarked. -/
theorem c5_no_duplicate_paths (c m : List String) (f : String)
    (hc : f ∈ c) (hm : f ∈ m) (hb : jsTrim f ≠ "") :
    (sortedFiles c m).Nodup ∧
      (sortedFiles c m).count f = 1 ∧
      ("* " ++ f) ∈ formattedFiles c m ∧
      ("  " ++ f) ∉ formattedFiles c m := by
  have hnodupCh : (changedFiles c m).Nodup := (nodup_jsDedup (c ++ m)).filter _
  have hperm : List.Perm (sortedFiles c m) (changedFiles c m) :=
    List.mergeSort_perm (changedFiles c m) fileLe
  have hnodup : (sortedFiles c m).Nodup := hperm.nodup_iff.mpr hnodupCh
  have hmemCh : f ∈ changedFiles c m := by
    unfold changedFiles allChangedFiles
    refine List.mem_filter.mpr
      ⟨(mem_jsDedup f (c ++ m)).mpr (List.mem_append.mpr (Or.inl hc)), ?_⟩
    simpa using hb
  have hmemS : f ∈ sortedFiles c m := by
    unfold sortedFiles
    exact List.mem_mergeSort.mpr hmemCh
  have hmark : markFile m f = "* " ++ f := by
    unfold markFile
    simp [hm]
  refine ⟨hnodup, List.count_eq_one_of_mem hnodup hmemS,
    List.mem_map.mpr ⟨f, hmemS, hmark⟩, ?_⟩
  intro hmem
  rcases List.mem_map.mp hmem with ⟨g, hg, hgeq⟩
  unfold markFile at hgeq
  by_cases hgm : g ∈ m
  · rw [if_pos (by simp [hgm] : m.contains g = true)] at hgeq
    have hdata := congrArg String.data hgeq
    rw [String.data_append, String.data_append] at hdata
    have e1 : "* ".data = ['*', ' '] := rfl
    have e2 : "  ".data = [' ', ' '] := rfl
    rw [e1, e2] at hdata
    simp only [List.cons_append, List.nil_append] at hdata
    injection hdata with h4 h5
    exact absurd h4 (by decide)
  · rw [if_neg (by simp [hgm] : ¬ m.contains g = true)] at hgeq
    have hdata := congrArg String.data hgeq
    rw [String.data_append, String.data_append] at hdata
    have e2 : "  ".data = [' ', ' '] := rfl
    rw [e2] at hdata
    simp only [List.cons_append, List.nil_append] at hdata
    injection hdata with h4 h5
    injection h5 with h6 h7
    refine hgm ?_
    have hgf : g = f := String.ext h7
    rw [hgf]
    exact hm

/-- Claim C5, witness: the file `x.txt` present in both contributing
sets. -/
theorem c5_no_duplicate_paths_witness :
    "x.txt" ∈ ["x.txt"] ∧ jsTrim "x.txt" ≠ "" ∧
      ((sortedFiles ["x.txt"] ["x.txt"]).Nodup ∧
        (sortedFiles ["x.txt"] ["x.txt"]).count "x.txt" = 1 ∧
        ("* " ++ "x.txt") ∈ formattedFiles ["x.txt"] ["x.txt"] ∧
        ("  " ++ "x.txt") ∉ formattedFiles ["x.txt"] ["x.txt"]) :=
  ⟨by decide, by decide,
    c5_no_duplicate_paths ["x.txt"] ["x.txt"] "x.txt" (by decide) (by decide)
      (by decide)⟩

/-- Claim C10: when all three committed-file tiers throw (committed set
empty) while the modification scan is eligible, the modification scan
still contributes: the final formatted list consists exactly of the
scanned (nonblank) modified files, each marked as modified — the
committed-tier failure does not suppress the merged output. -/
theorem c10_modified_only (env : GitEnv) (bn base p fp : String)
    (h1 : tier1 env bn base p = none) (h2 : tier2 env bn base p = none)
    (h3 : env.statusT3 = none) (helig : scanEligible env bn = true) :
    resolveCommitted env bn base p fp = [] ∧
      modifiedFiles env bn fp p = scanUnion env fp p ∧
      formattedFiles (resolveCommitted env bn base p fp) (modifiedFiles env bn fp p) =
        (sortedFiles [] (modifiedFiles env bn fp p)).map (fun f => "* " ++ f) ∧
      (∀ f, f ∈ sortedFiles [] (modifiedFiles env bn fp p) ↔
        (f ∈ modifiedFiles env bn fp p ∧ jsTrim f ≠ "")) := by
  have hcom : resolveCommitted env bn base p fp = [] := by
    unfold resolveCommitted tier3
    rw [h1, h2, h3]
    rfl
  have hmod : modifiedFiles env bn fp p = scanUnion env fp p := by
    cases hcb : env.currentBranch with
    | none =>
      unfold scanEligible at helig
      rw [hcb] at helig
      cases helig
    | some cur =>
      have helig2 : (normalizeRefs (jsTrim cur) == normalizeRefs bn &&
          !isRemoteBranch bn) = true := by
        have h := helig
        unfold scanEligible at h
        rw [hcb] at h
        exact h
      simp [modifiedFiles, hcb, helig2]
  refine ⟨hcom, hmod, ?_, ?_⟩
  · rw [hcom]
    unfold formattedFiles
    apply List.map_congr_left
    intro g hg
    have hgm : g ∈ modifiedFiles env bn fp p := by
      have hg1 : g ∈ changedFiles [] (modifiedFiles env bn fp p) := by
        unfold sortedFiles at hg
        exact List.mem_mergeSort.mp hg
      have hg2 := (List.mem_filter.mp hg1).1
      have hg3 := (mem_jsDedup _ _).mp hg2
      simpa using hg3
    unfold markFile
    simp [hgm]
  · intro f
    unfold sortedFiles
    rw [List.mem_mergeSort]
    unfold changedFiles allChangedFiles
    rw [List.mem_filter]
    simp [mem_jsDedup]

/-- Claim C10, witness: the concrete environment `envC10` (all tiers
throw, checkout on `dev`, scanner succeeds), selecting `dev`. -/
theorem c10_modified_only_witness :
    tier1 envC10 "dev" "main" "" = none ∧
      tier2 envC10 "dev" "main" "" = none ∧
      envC10.statusT3 = none ∧
      scanEligible envC10 "dev" = true ∧
      (resolveCommitted envC10 "dev" "main" "" "" = [] ∧
        modifiedFiles envC10 "dev" "" "" = scanUnion envC10 "" "" ∧
        formattedFiles (resolveCommitted envC10 "dev" "main" "" "")
            (modifiedFiles envC10 "dev" "" "") =
          (sortedFiles [] (modifiedFiles envC10 "dev" "" "")).map
            (fun f => "* " ++ f) ∧
        (∀ f, f ∈ sortedFiles [] (modifiedFiles envC10 "dev" "" "") ↔
          (f ∈ modifiedFiles envC10 "dev" "" "" ∧ jsTrim f ≠ ""))) :=
  ⟨by decide, by decide, rfl, by decide,
    c10_modified_only envC10 "dev" "main" "" "" (by decide) (by decide) rfl
      (by decide)⟩

/-- Claim C6, witness: the two-key ordering at a concrete merged input. -/
theorem c6_sorted_order_witness :
    (sortedFiles ["src/a.ts", "lib"] ["B.txt"]).Pairwise (fun a b =>
      (isDirLike b = true → isDirLike a = true) ∧
      (isDirLike a = isDirLike b → lexLe (lowerData a) (lowerData b))) :=
  c6_sorted_order ["src/a.ts", "lib"] ["B.txt"]

/-- Claim C7, witness: totality and the equality characterization at the
concrete pair `src/A.ts`, `src/a.ts`. -/
theorem c7_comparator_total_witness :
    (fileLe "src/A.ts" "src/a.ts" || fileLe "src/a.ts" "src/A.ts") = true ∧
      (fileCmp "src/A.ts" "src/a.ts" = 0 ↔
        (isDirLike "src/A.ts" = isDirLike "src/a.ts" ∧
          lowerData "src/A.ts" = lowerData "src/a.ts")) :=
  c7_comparator_total "src/A.ts" "src/a.ts"

/-- Claim C9, witness: the amended statement at a concrete branch
listing. -/
theorem c9_repo_check_witness :
    earlyFlow false (some "* dev\n") true = EarlyOutcome.notGitRepoError ∧
      earlyFlow false none false = EarlyOutcome.branchListError ∧
      earlyFlow false (some "* dev\n") false =
        EarlyOutcome.proceed (branchItemsOf "* dev\n") :=
  c9_repo_check (some "* dev\n") "* dev\n"
